import Mathlib

/-!
Shallow embedding of `src/mediaplayerctl.cpp`: a command-line controller for
MPRIS media players on the session bus.  The pipeline is
discovery → state aggregation → action resolution → dispatch.

Pure C++ functions (`findPlayer`, `evalActions`) become Lean functions on
association lists that model `std::set<std::string>` / `std::map<std::string, _>`
(kept sorted and duplicate-free by the insertion operations, exactly as the
C++ ordered containers do, with the lexicographic string order of
`std::string::operator<`).  Bus I/O is modelled by an `Env` record of oracles
(one per remote call the program can make) and a trace of bus events and
printed lines; `exit(n)` becomes an `Except` error carrying the exit code.
-/

namespace MPC

/-- Lexicographic order on character lists, by code point; this is the order
`std::string::operator<` imposes on the UTF-8 strings travelling over the bus
(code-point order and UTF-8 byte order agree). -/
def lexLtb : List Char → List Char → Bool
  | _, [] => false
  | [], _ :: _ => true
  | a :: as, b :: bs =>
    if a.toNat < b.toNat then true
    else if b.toNat < a.toNat then false
    else lexLtb as bs

/-- `std::string` comparison used by `std::set` / `std::map`. -/
def strLt (a b : String) : Bool := lexLtb a.data b.data

/-- `enum State {STOPPED, PAUSED, PLAYING};` -/
inductive State where
  | STOPPED
  | PAUSED
  | PLAYING
deriving DecidableEq, Repr

abbrev PlayerSet := List String
abbrev PlayerStates := List (String × State)
abbrev PlayerActions := List (String × String)

/-- `std::set<std::string>::insert`: keeps the list sorted and duplicate-free
(lexicographic string order, as the default comparator of `std::set`). -/
def setInsert (x : String) : PlayerSet → PlayerSet
  | [] => [x]
  | y :: ys =>
    if strLt x y then x :: y :: ys
    else if x = y then y :: ys
    else y :: setInsert x ys

/-- `std::map<std::string, A>::operator[] = v`: insert-or-assign, keeping the
association list sorted by key and duplicate-free. -/
def mapInsert {A : Type} (k : String) (v : A) : List (String × A) → List (String × A)
  | [] => [(k, v)]
  | (k2, v2) :: rest =>
    if strLt k k2 then (k, v) :: (k2, v2) :: rest
    else if k = k2 then (k, v) :: rest
    else (k2, v2) :: mapInsert k v rest

/-- Key invariant of the ordered containers: strictly increasing keys. -/
def SortedKeys {A : Type} (m : List (String × A)) : Prop :=
  List.Pairwise (fun a b => strLt a.1 b.1 = true) m

/-- Strictly increasing player set. -/
def SortedSet (l : List String) : Prop :=
  List.Pairwise (fun a b : String => strLt a b = true) l

/-- The MPRIS bus-name family, `static const std::string prefix` in
`getMediaPlayerInstances`. -/
def mprisFamily : String := "org.mpris.MediaPlayer2."

/-- The filter of `getMediaPlayerInstances`:
`i.compare(0, prefix.size(), prefix) == 0` keeps exactly the names whose
first `prefix.size()` characters equal the family string; matches are
inserted into the result set. -/
def filterPlayers (names : List String) : PlayerSet :=
  names.foldl
    (fun result i =>
      if i.data.take mprisFamily.data.length = mprisFamily.data then setInsert i result
      else result)
    []

/-- `findPlayer`: collect the keys of `pstates` whose state occurs in
`states`, as a set (sorted, duplicate-free). -/
def findPlayer (pstates : PlayerStates) (states : List State) : PlayerSet :=
  pstates.foldl
    (fun result entry =>
      states.foldl (fun r s => if entry.2 = s then setInsert entry.1 r else r) result)
    []

/-- `evalActions`: resolve one command into a per-player method plan.
`none` models the `else` branch (unknown method: usage text and `exit(127)`
in the context of the caller). -/
def evalActions (method : String) (states : PlayerStates) : Option PlayerActions :=
  let players_playing := findPlayer states [State.PLAYING]
  if method = "play" then
    some (if players_playing.isEmpty then
            let player := findPlayer states [State.PAUSED]
            let player := if player.isEmpty then findPlayer states [State.STOPPED] else player
            if player.isEmpty then [] else mapInsert (player.headD "") "Play" []
          else [])
  else if method = "pause" then
    some (players_playing.foldl (fun r p => mapInsert p "Pause" r) [])
  else if method = "playpause" then
    some (if players_playing.isEmpty then
            let player := findPlayer states [State.PAUSED]
            let player := if player.isEmpty then findPlayer states [State.STOPPED] else player
            if player.isEmpty then [] else mapInsert (player.headD "") "Play" []
          else players_playing.foldl (fun r p => mapInsert p "Pause" r) [])
  else if method = "stop" then
    some ((findPlayer states [State.PLAYING, State.PAUSED]).foldl
            (fun r p => mapInsert p "Stop" r) [])
  else if method = "next" then
    some (if players_playing.isEmpty then [] else mapInsert (players_playing.headD "") "Next" [])
  else if method = "prev" then
    some (if players_playing.isEmpty then [] else mapInsert (players_playing.headD "") "Previous" [])
  else
    none

/-- One remote interaction on the session bus, as observed at the Bus Client
boundary: connecting, the registrar `ListNames` call, one per-player
`PlaybackStatus` property query, one per-player control-method dispatch. -/
inductive BusEvent where
  | connectEv
  | listNamesEv
  | stateQueryEv (player : String)
  | dispatchEv (player : String) (method : String)
deriving DecidableEq, Repr

/-- Observable trace of one run: bus events in order, and the lines printed
to stdout/stderr in order. -/
structure Trace where
  events : List BusEvent
  out : List String
deriving DecidableEq, Repr

def emit (t : Trace) (e : BusEvent) : Trace := { t with events := t.events ++ [e] }

def say (t : Trace) (s : String) : Trace := { t with out := t.out ++ [s] }

/-- The external world: command line plus one oracle per remote operation.
Proxy-creation success is a `Bool` per target; each synchronous call either
returns its typed result or fails with a transport error message
(`Glib::Error::what`). -/
structure Env where
  progArgs : List String
  busAvailable : Bool
  registrarProxyOk : Bool
  listNamesReply : Except String (List String)
  propProxyOk : String → Bool
  propReply : String → Except String (List String)
  ctrlProxyOk : String → Bool
  ctrlReply : String → String → Except String Unit

def usageLine (progname : String) : String :=
  "usage: " ++ progname ++ " <play|pause|playpause|stop|next|prev>"

/-- `eval_args`: sets `progname`, demands exactly one command argument,
otherwise prints usage and exits 127. -/
def eval_args (argv : List String) : Except (Nat × List String) String :=
  match argv with
  | [_, m] => Except.ok m
  | _ => Except.error (127, [usageLine (argv.headD "(unset)")])

/-- `getMediaPlayerInstances`: registrar proxy (exit 2 on creation failure),
then `ListNames`; a transport error during the call is caught and logged and
the (still empty) result set is returned. -/
def getMediaPlayerInstances (env : Env) (t : Trace) :
    Except (Nat × Trace) (PlayerSet × Trace) :=
  if env.registrarProxyOk then
    let t := emit t BusEvent.listNamesEv
    match env.listNamesReply with
    | Except.ok names => Except.ok (filterPlayers names, t)
    | Except.error e => Except.ok ([], say t ("Got an error: " ++ e ++ "."))
  else
    Except.error
      (2, say t "The proxy to the user session bus was not successfully created.")

def stateText : State → String
  | State.PLAYING => "Playing"
  | State.PAUSED => "Paused"
  | State.STOPPED => "Stopped"

/-- The loop body of `getMediaPlayerStates` for one player: property proxy
(exit 3 on creation failure), `Get("org.mpris.MediaPlayer2.Player",
"PlaybackStatus")`, then classify the reply: transport error → logged, player
skipped; arity ≠ 1 → logged, skipped; text not in
{Playing, Paused, Stopped} → logged, skipped; otherwise the state is
recorded. -/
def stateQueryStep (env : Env) (states : PlayerStates) (t : Trace) (player : String) :
    Except (Nat × Trace) (PlayerStates × Trace) :=
  if env.propProxyOk player then
    let t := emit t (BusEvent.stateQueryEv player)
    match env.propReply player with
    | Except.error e => Except.ok (states, say t ("Got an error: " ++ e ++ "."))
    | Except.ok reply =>
      if reply.length ≠ 1 then
        Except.ok (states, say t ("Unable to determine state of " ++ player))
      else if reply.headD "" = "Playing" then
        Except.ok (mapInsert player State.PLAYING states, t)
      else if reply.headD "" = "Paused" then
        Except.ok (mapInsert player State.PAUSED states, t)
      else if reply.headD "" = "Stopped" then
        Except.ok (mapInsert player State.STOPPED states, t)
      else
        Except.ok (states, say t ("Unknown state " ++ reply.headD "" ++ " of " ++ player))
  else
    Except.error
      (3, say t "The proxy to the user session bus was not successfully created.")

/-- `getMediaPlayerStates`: fold `stateQueryStep` over the discovered
players (in the `std::set` iteration order). -/
def getMediaPlayerStatesAux (env : Env) :
    List String → PlayerStates → Trace → Except (Nat × Trace) (PlayerStates × Trace)
  | [], states, t => Except.ok (states, t)
  | p :: ps, states, t =>
    match stateQueryStep env states t p with
    | Except.error e => Except.error e
    | Except.ok (states2, t2) => getMediaPlayerStatesAux env ps states2 t2

/-- The dispatch loop of `main` over `execMediaPlayerMethod`: skip empty
methods, control proxy (exit 4 on creation failure), invoke the method,
log transport errors and continue. -/
def dispatchAll (env : Env) : List (String × String) → Trace → Except (Nat × Trace) Trace
  | [], t => Except.ok t
  | a :: rest, t =>
    if a.2 = "" then dispatchAll env rest t
    else if env.ctrlProxyOk a.1 then
      let t := emit t (BusEvent.dispatchEv a.1 a.2)
      match env.ctrlReply a.1 a.2 with
      | Except.ok _ => dispatchAll env rest t
      | Except.error e => dispatchAll env rest (say t ("Got an error: " ++ e ++ "."))
    else
      Except.error
        (4, say t "The proxy to the user session bus was not successfully created.")

/-- `main`: argument check, session-bus connection (exit 1 if unavailable),
discovery ("no player found." and exit 0 on an empty set), aggregation,
resolution (unknown method: diagnostic, usage, exit 127), dispatch. -/
def runMain (env : Env) : Nat × Trace :=
  match eval_args env.progArgs with
  | Except.error (n, msgs) => (n, ⟨[], msgs⟩)
  | Except.ok method =>
    let t := emit ⟨[], []⟩ BusEvent.connectEv
    if env.busAvailable then
      match getMediaPlayerInstances env t with
      | Except.error (n, t2) => (n, t2)
      | Except.ok (players, t2) =>
        if players.isEmpty then (0, say t2 "no player found.")
        else
          match getMediaPlayerStatesAux env players [] t2 with
          | Except.error (n, t3) => (n, t3)
          | Except.ok (states, t3) =>
            match evalActions method states with
            | none =>
              (127, say (say t3 ("Unknown method " ++ method))
                        (usageLine (env.progArgs.headD "(unset)")))
            | some actions =>
              match dispatchAll env actions t3 with
              | Except.error (n, t4) => (n, t4)
              | Except.ok t4 => (0, t4)
    else (1, say t "The user session bus is not available.")

/-- A `PlaybackStatus` query for `p` that succeeds and classifies to `s`:
the reply is a one-element tuple holding exactly the text of `s`. -/
def goodReply (env : Env) (p : String) (s : State) : Prop :=
  env.propReply p = Except.ok [stateText s]

/-- A session where the registrar `ListNames` call fails at the transport
level and everything else is healthy. -/
def envLnFail : Env where
  progArgs := ["mediaplayerctl", "play"]
  busAvailable := true
  registrarProxyOk := true
  listNamesReply := Except.error "Timeout was reached"
  propProxyOk := fun _ => true
  propReply := fun _ => Except.ok ["Playing"]
  ctrlProxyOk := fun _ => true
  ctrlReply := fun _ _ => Except.ok ()

/-- A healthy session with one playing player, invoked with the
unrecognized command `foo`. -/
def envUnknownCmd : Env where
  progArgs := ["mediaplayerctl", "foo"]
  busAvailable := true
  registrarProxyOk := true
  listNamesReply := Except.ok ["org.mpris.MediaPlayer2.vlc", "org.freedesktop.DBus"]
  propProxyOk := fun _ => true
  propReply := fun _ => Except.ok ["Playing"]
  ctrlProxyOk := fun _ => true
  ctrlReply := fun _ _ => Except.ok ()

/-- Sample state map: one playing, one paused, one stopped player. -/
def statesMixed : PlayerStates :=
  [("org.mpris.MediaPlayer2.clementine", State.PLAYING),
   ("org.mpris.MediaPlayer2.spotify", State.PAUSED),
   ("org.mpris.MediaPlayer2.vlc", State.STOPPED)]

/-- Sample state map: two paused players, nothing playing. -/
def statesPaused : PlayerStates :=
  [("org.mpris.MediaPlayer2.spotify", State.PAUSED),
   ("org.mpris.MediaPlayer2.vlc", State.PAUSED)]

/-- A healthy session used to exercise aggregation: two players with
well-formed replies. -/
def envAgg : Env where
  progArgs := ["mediaplayerctl", "pause"]
  busAvailable := true
  registrarProxyOk := true
  listNamesReply := Except.ok ["org.mpris.MediaPlayer2.vlc", "org.mpris.MediaPlayer2.spotify"]
  propProxyOk := fun _ => true
  propReply := fun p =>
    if p = "org.mpris.MediaPlayer2.vlc" then Except.ok ["Playing"]
    else if p = "org.mpris.MediaPlayer2.spotify" then Except.ok ["Paused"]
    else Except.error "unreachable"
  ctrlProxyOk := fun _ => true
  ctrlReply := fun _ _ => Except.ok ()

/-- The player set discovered in `envAgg` (sorted, duplicate-free). -/
def aggPlayers : PlayerSet :=
  ["org.mpris.MediaPlayer2.spotify", "org.mpris.MediaPlayer2.vlc"]


/-! ### Order lemmas for the string comparison -/

theorem char_eq_of_toNat_eq {a b : Char} (h : a.toNat = b.toNat) : a = b :=
  Char.ext (UInt32.toNat.inj h)

theorem lexLtb_irrefl : ∀ l : List Char, lexLtb l l = false
  | [] => rfl
  | a :: as => by simp [lexLtb, lexLtb_irrefl as]

theorem lexLtb_trans :
    ∀ (a b c : List Char), lexLtb a b = true → lexLtb b c = true → lexLtb a c = true
  | _, b, [], _, h2 => by simp [lexLtb] at h2
  | [], [], _ :: _, h1, _ => by simp [lexLtb] at h1
  | _ :: _, [], _ :: _, h1, _ => by simp [lexLtb] at h1
  | [], _ :: _, _ :: _, _, _ => by simp [lexLtb]
  | a :: as, b :: bs, c :: cs, h1, h2 => by
    simp only [lexLtb] at h1 h2 ⊢
    split at h1
    · rename_i hab
      split at h2
      · rename_i hbc
        simp [Nat.lt_trans hab hbc]
      · split at h2
        · exact absurd h2 (by simp)
        · rename_i hcb
          have hac : a.toNat < c.toNat := by omega
          simp [hac]
    · split at h1
      · exact absurd h1 (by simp)
      · rename_i hba hab
        split at h2
        · rename_i hbc
          have hac : a.toNat < c.toNat := by omega
          simp [hac]
        · split at h2
          · exact absurd h2 (by simp)
          · rename_i hcb hbc
            have hac : ¬ a.toNat < c.toNat := by omega
            have hca : ¬ c.toNat < a.toNat := by omega
            simp [hac, hca, lexLtb_trans as bs cs h1 h2]

theorem lexLtb_total :
    ∀ (a b : List Char), lexLtb a b = false → a ≠ b → lexLtb b a = true
  | [], [], _, h2 => absurd rfl h2
  | [], _ :: _, h1, _ => by simp [lexLtb] at h1
  | _ :: _, [], _, _ => by simp [lexLtb]
  | a :: as, b :: bs, h1, h2 => by
    simp only [lexLtb] at h1 ⊢
    split at h1
    · exact absurd h1 (by simp)
    · rename_i hab
      split at h1
      · rename_i hba
        simp [hba]
      · rename_i hba
        have hq : a = b := char_eq_of_toNat_eq (by omega)
        subst hq
        have hne : as ≠ bs := by
          intro hx
          exact h2 (by rw [hx])
        simp only [Nat.lt_irrefl, if_false]
        exact lexLtb_total as bs h1 hne

theorem lexLtb_asymm {a b : List Char} (h : lexLtb a b = true) : lexLtb b a = false := by
  by_contra hc
  have h2 : lexLtb b a = true := by
    cases hx : lexLtb b a
    · exact absurd hx hc
    · rfl
  have h3 := lexLtb_trans a b a h h2
  simp [lexLtb_irrefl] at h3

theorem string_eq_of_data_eq {a b : String} (h : a.data = b.data) : a = b :=
  String.ext h

theorem strLt_irrefl (s : String) : strLt s s = false := lexLtb_irrefl s.data

theorem strLt_trans {a b c : String} (h1 : strLt a b = true) (h2 : strLt b c = true) :
    strLt a c = true := lexLtb_trans a.data b.data c.data h1 h2

theorem strLt_asymm {a b : String} (h : strLt a b = true) : strLt b a = false :=
  lexLtb_asymm h

theorem strLt_total {a b : String} (h : strLt a b = false) (hne : a ≠ b) :
    strLt b a = true :=
  lexLtb_total a.data b.data h (fun hd => hne (string_eq_of_data_eq hd))

theorem ne_of_strLt {a b : String} (h : strLt a b = true) : a ≠ b := by
  intro hx
  subst hx
  simp [strLt_irrefl] at h

/-! ### Ordered-container lemmas -/

theorem mem_setInsert (x y : String) :
    ∀ (l : PlayerSet), y ∈ setInsert x l ↔ y = x ∨ y ∈ l
  | [] => by simp [setInsert]
  | z :: zs => by
    simp only [setInsert]
    split
    · simp
    · split
      · rename_i hlt heq
        subst heq
        simp only [List.mem_cons]
        tauto
      · simp only [List.mem_cons, mem_setInsert x y zs]
        tauto

theorem sortedSet_setInsert (x : String) :
    ∀ (l : PlayerSet), SortedSet l → SortedSet (setInsert x l)
  | [], _ => by simp [setInsert, SortedSet]
  | z :: zs, h => by
    have hz := (List.pairwise_cons.mp h).1
    have hzs := (List.pairwise_cons.mp h).2
    simp only [setInsert]
    split
    · rename_i hlt
      refine List.pairwise_cons.mpr ⟨?_, h⟩
      intro w hw
      rcases List.mem_cons.mp hw with hw | hw
      · subst hw
        exact hlt
      · exact strLt_trans hlt (hz w hw)
    · split
      · exact h
      · rename_i hlt heq
        refine List.pairwise_cons.mpr ⟨?_, sortedSet_setInsert x zs hzs⟩
        intro w hw
        rcases (mem_setInsert x w zs).mp hw with hw | hw
        · subst hw
          exact strLt_total (by simpa using hlt) heq
        · exact hz w hw

theorem mem_mapInsert_weak {A : Type} {k : String} {v : A} :
    ∀ {m : List (String × A)} {p : String} {w : A},
      (p, w) ∈ mapInsert k v m → (p = k ∧ w = v) ∨ (p, w) ∈ m := by
  intro m
  induction m with
  | nil => intro p w h; simpa [mapInsert] using h
  | cons e rest ih =>
    intro p w h
    simp only [mapInsert] at h
    split at h
    · rcases List.mem_cons.mp h with h | h
      · left; simpa using h
      · right; exact h
    · split at h
      · rcases List.mem_cons.mp h with h | h
        · left; simpa using h
        · right; exact List.mem_cons_of_mem e h
      · rcases List.mem_cons.mp h with h | h
        · right; exact List.mem_cons.mpr (Or.inl h)
        · rcases ih h with h | h
          · left; exact h
          · right; exact List.mem_cons_of_mem e h

theorem sortedKeys_mapInsert {A : Type} (k : String) (v : A) :
    ∀ (m : List (String × A)), SortedKeys m → SortedKeys (mapInsert k v m)
  | [], _ => by simp [mapInsert, SortedKeys]
  | e :: rest, h => by
    have he := (List.pairwise_cons.mp h).1
    have hrest := (List.pairwise_cons.mp h).2
    simp only [mapInsert]
    split
    · rename_i hlt
      refine List.pairwise_cons.mpr ⟨?_, h⟩
      intro w hw
      rcases List.mem_cons.mp hw with hw | hw
      · subst hw
        exact hlt
      · exact strLt_trans hlt (he w hw)
    · split
      · rename_i hlt heq
        refine List.pairwise_cons.mpr ⟨?_, hrest⟩
        intro w hw
        have := he w hw
        rw [heq]
        exact this
      · rename_i hlt heq
        refine List.pairwise_cons.mpr ⟨?_, sortedKeys_mapInsert k v rest hrest⟩
        intro w hw
        rcases mem_mapInsert_weak hw with ⟨hwk, _⟩ | hw
        · rw [hwk]
          exact strLt_total (by simpa using hlt) heq
        · exact he w hw

theorem mem_mapInsert {A : Type} (k : String) (v : A) :
    ∀ (m : List (String × A)), SortedKeys m →
      ∀ (p : String) (w : A),
        ((p, w) ∈ mapInsert k v m ↔ (p = k ∧ w = v) ∨ ((p, w) ∈ m ∧ p ≠ k))
  | [], _, p, w => by simp [mapInsert]
  | (k2, v2) :: rest, h, p, w => by
    have he := (List.pairwise_cons.mp h).1
    have hrest := (List.pairwise_cons.mp h).2
    simp only [mapInsert]
    split
    · rename_i hlt
      constructor
      · intro hm
        rcases List.mem_cons.mp hm with hm | hm
        · left
          simpa using hm
        · right
          refine ⟨hm, ?_⟩
          intro hpk
          rcases List.mem_cons.mp hm with hm2 | hm2
          · have hpe : p = k2 := by
              have h3 := congrArg Prod.fst hm2
              simpa using h3
            rw [← hpk, hpe, strLt_irrefl] at hlt
            exact absurd hlt (by simp)
          · have h2 := he (p, w) hm2
            rw [hpk] at h2
            rw [strLt_asymm h2] at hlt
            exact absurd hlt (by simp)
      · intro hm
        rcases hm with ⟨hpk, hwv⟩ | ⟨hm, _⟩
        · exact List.mem_cons.mpr (Or.inl (by rw [hpk, hwv]))
        · exact List.mem_cons_of_mem _ hm
    · split
      · rename_i hlt heq
        constructor
        · intro hm
          rcases List.mem_cons.mp hm with hm | hm
          · left
            simpa using hm
          · right
            refine ⟨List.mem_cons_of_mem _ hm, ?_⟩
            intro hpk
            have h2 := he (p, w) hm
            rw [hpk, ← heq, strLt_irrefl] at h2
            exact absurd h2 (by simp)
        · intro hm
          rcases hm with ⟨hpk, hwv⟩ | ⟨hm, hpk⟩
          · exact List.mem_cons.mpr (Or.inl (by rw [hpk, hwv]))
          · rcases List.mem_cons.mp hm with hm | hm
            · have hpe : p = k2 := by
                have h3 := congrArg Prod.fst hm
                simpa using h3
              rw [← heq] at hpe
              exact absurd hpe hpk
            · exact List.mem_cons_of_mem _ hm
      · rename_i hlt heq
        constructor
        · intro hm
          rcases List.mem_cons.mp hm with hm | hm
          · right
            refine ⟨List.mem_cons.mpr (Or.inl hm), ?_⟩
            intro hpk
            have hpe : p = k2 := by
              have h3 := congrArg Prod.fst hm
              simpa using h3
            rw [hpk] at hpe
            exact heq hpe
          · rcases (mem_mapInsert k v rest hrest p w).mp hm with h2 | ⟨h2, h3⟩
            · left; exact h2
            · right; exact ⟨List.mem_cons_of_mem _ h2, h3⟩
        · intro hm
          rcases hm with ⟨hpk, hwv⟩ | ⟨hm, hpk⟩
          · exact List.mem_cons_of_mem _
              ((mem_mapInsert k v rest hrest p w).mpr (Or.inl ⟨hpk, hwv⟩))
          · rcases List.mem_cons.mp hm with hm | hm
            · exact List.mem_cons.mpr (Or.inl hm)
            · exact List.mem_cons_of_mem _
                ((mem_mapInsert k v rest hrest p w).mpr (Or.inr ⟨hm, hpk⟩))

/-! ### Folds used by `evalActions` and `findPlayer` -/

theorem foldl_mapInsert_sorted (v : String) :
    ∀ (l : PlayerSet) (m : PlayerActions), SortedKeys m →
      SortedKeys (l.foldl (fun r q => mapInsert q v r) m)
  | [], _, hm => hm
  | a :: l, m, hm =>
    foldl_mapInsert_sorted v l (mapInsert a v m) (sortedKeys_mapInsert a v m hm)

theorem foldl_mapInsert_mem (v : String) :
    ∀ (l : PlayerSet) (m : PlayerActions), SortedKeys m →
      ∀ (p w : String),
        ((p, w) ∈ l.foldl (fun r q => mapInsert q v r) m ↔
          (p ∈ l ∧ w = v) ∨ ((p, w) ∈ m ∧ p ∉ l))
  | [], m, hm, p, w => by simp
  | a :: l, m, hm, p, w => by
    have ih := foldl_mapInsert_mem v l (mapInsert a v m)
      (sortedKeys_mapInsert a v m hm) p w
    simp only [List.foldl_cons] at ih ⊢
    rw [ih, mem_mapInsert a v m hm p w]
    simp only [List.mem_cons]
    by_cases hpa : p = a
    · subst hpa
      tauto
    · tauto

theorem mem_stateFold (e : String × State) :
    ∀ (sts : List State) (r : PlayerSet) (p : String),
      (p ∈ sts.foldl (fun r s => if e.2 = s then setInsert e.1 r else r) r ↔
        (p = e.1 ∧ e.2 ∈ sts) ∨ p ∈ r)
  | [], r, p => by simp
  | s :: sts, r, p => by
    have ih := mem_stateFold e sts (if e.2 = s then setInsert e.1 r else r) p
    simp only [List.foldl_cons] at ih ⊢
    rw [ih]
    by_cases hes : e.2 = s
    · simp only [if_pos hes, mem_setInsert, List.mem_cons]
      constructor
      · intro h
        rcases h with ⟨h1, h2⟩ | h
        · exact Or.inl ⟨h1, Or.inr h2⟩
        · rcases h with h | h
          · exact Or.inl ⟨h, Or.inl hes⟩
          · exact Or.inr h
      · intro h
        rcases h with ⟨h1, h2⟩ | h
        · rcases h2 with h2 | h2
          · exact Or.inr (Or.inl h1)
          · exact Or.inl ⟨h1, h2⟩
        · exact Or.inr (Or.inr h)
    · simp only [if_neg hes, List.mem_cons]
      constructor
      · intro h
        rcases h with ⟨h1, h2⟩ | h
        · exact Or.inl ⟨h1, Or.inr h2⟩
        · exact Or.inr h
      · intro h
        rcases h with ⟨h1, h2⟩ | h
        · rcases h2 with h2 | h2
          · exact absurd h2 hes
          · exact Or.inl ⟨h1, h2⟩
        · exact Or.inr h

theorem sorted_stateFold (e : String × State) :
    ∀ (sts : List State) (r : PlayerSet), SortedSet r →
      SortedSet (sts.foldl (fun r s => if e.2 = s then setInsert e.1 r else r) r)
  | [], _, hr => hr
  | s :: sts, r, hr => by
    simp only [List.foldl_cons]
    refine sorted_stateFold e sts _ ?_
    by_cases hes : e.2 = s
    · simpa [if_pos hes] using sortedSet_setInsert e.1 r hr
    · simpa [if_neg hes] using hr

theorem mem_findPlayerAux (sts : List State) :
    ∀ (pstates : PlayerStates) (acc : PlayerSet) (p : String),
      (p ∈ pstates.foldl
          (fun result entry =>
            sts.foldl (fun r s => if entry.2 = s then setInsert entry.1 r else r) result)
          acc ↔
        (∃ s, (p, s) ∈ pstates ∧ s ∈ sts) ∨ p ∈ acc)
  | [], acc, p => by simp
  | e :: pstates, acc, p => by
    have ih := mem_findPlayerAux sts pstates
      (sts.foldl (fun r s => if e.2 = s then setInsert e.1 r else r) acc) p
    simp only [List.foldl_cons] at ih ⊢
    rw [ih, mem_stateFold e sts acc p]
    constructor
    · intro h
      rcases h with ⟨s, hs1, hs2⟩ | h
      · exact Or.inl ⟨s, List.mem_cons_of_mem e hs1, hs2⟩
      · rcases h with ⟨h1, h2⟩ | h
        · refine Or.inl ⟨e.2, ?_, h2⟩
          rw [h1]
          exact List.mem_cons.mpr (Or.inl rfl)
        · exact Or.inr h
    · intro h
      rcases h with ⟨s, hs1, hs2⟩ | h
      · rcases List.mem_cons.mp hs1 with hs1 | hs1
        · refine Or.inr (Or.inl ⟨?_, ?_⟩)
          · have h3 := congrArg Prod.fst hs1
            simpa using h3
          · have h3 := congrArg Prod.snd hs1
            simp at h3
            exact h3 ▸ hs2
        · exact Or.inl ⟨s, hs1, hs2⟩
      · exact Or.inr (Or.inr h)

theorem mem_findPlayer (pstates : PlayerStates) (sts : List State) (p : String) :
    p ∈ findPlayer pstates sts ↔ ∃ s, (p, s) ∈ pstates ∧ s ∈ sts := by
  have h := mem_findPlayerAux sts pstates [] p
  simpa [findPlayer] using h

theorem findPlayer_sorted (pstates : PlayerStates) (sts : List State) :
    SortedSet (findPlayer pstates sts) := by
  suffices h : ∀ (ps : PlayerStates) (acc : PlayerSet), SortedSet acc →
      SortedSet (ps.foldl
        (fun result entry =>
          sts.foldl (fun r s => if entry.2 = s then setInsert entry.1 r else r) result)
        acc) by
    exact h pstates [] List.Pairwise.nil
  intro ps
  induction ps with
  | nil => intro acc hacc; exact hacc
  | cons e ps ih =>
    intro acc hacc
    simp only [List.foldl_cons]
    exact ih _ (sorted_stateFold e sts acc hacc)

theorem findPlayer_eq_nil (pstates : PlayerStates) (sts : List State) :
    findPlayer pstates sts = [] ↔ ∀ p s, (p, s) ∈ pstates → s ∉ sts := by
  rw [List.eq_nil_iff_forall_not_mem]
  constructor
  · intro h p s hps hs
    exact h p ((mem_findPlayer pstates sts p).mpr ⟨s, hps, hs⟩)
  · intro h p hp
    rcases (mem_findPlayer pstates sts p).mp hp with ⟨s, hs1, hs2⟩
    exact h p s hs1 hs2

theorem sorted_headD_min {l : PlayerSet} (h : SortedSet l) (hne : l ≠ []) :
    l.headD "" ∈ l ∧ ∀ q ∈ l, l.headD "" = q ∨ strLt (l.headD "") q = true := by
  cases l with
  | nil => exact absurd rfl hne
  | cons a l =>
    refine ⟨List.mem_cons.mpr (Or.inl rfl), ?_⟩
    intro q hq
    rcases List.mem_cons.mp hq with hq | hq
    · exact Or.inl hq.symm
    · exact Or.inr ((List.pairwise_cons.mp h).1 q hq)

/-! ### Aggregation lemmas -/

theorem stateText_inj {s1 s2 : State} (h : stateText s1 = stateText s2) : s1 = s2 := by
  cases s1 <;> cases s2 <;> first
    | rfl
    | exact absurd h (by decide)

theorem stateQueryStep_proxyFail (env : Env) (q : String) (acc : PlayerStates)
    (t : Trace) (hp : env.propProxyOk q = false) :
    stateQueryStep env acc t q =
      Except.error
        (3, say t "The proxy to the user session bus was not successfully created.") := by
  simp [stateQueryStep, hp]

theorem stateQueryStep_spec (env : Env) (q : String) (acc : PlayerStates) (t : Trace)
    (hp : env.propProxyOk q = true) :
    ∃ acc2 t2, stateQueryStep env acc t q = Except.ok (acc2, t2) ∧
      t2.events = t.events ++ [BusEvent.stateQueryEv q] ∧
      ((∃ s, goodReply env q s ∧ acc2 = mapInsert q s acc) ∨
       ((∀ s, ¬ goodReply env q s) ∧ acc2 = acc)) := by
  cases hr : env.propReply q with
  | error e =>
    refine ⟨acc, say (emit t (BusEvent.stateQueryEv q)) ("Got an error: " ++ e ++ "."),
      ?_, rfl, Or.inr ⟨?_, rfl⟩⟩
    · simp [stateQueryStep, hp, hr]
    · intro s hs
      rw [goodReply, hr] at hs
      exact Except.noConfusion hs
  | ok reply =>
    match reply with
    | [] =>
      refine ⟨acc, say (emit t (BusEvent.stateQueryEv q)) ("Unable to determine state of " ++ q),
        ?_, rfl, Or.inr ⟨?_, rfl⟩⟩
      · simp [stateQueryStep, hp, hr]
      · intro s hs
        rw [goodReply, hr] at hs
        simp at hs
    | x :: y :: ys =>
      refine ⟨acc, say (emit t (BusEvent.stateQueryEv q)) ("Unable to determine state of " ++ q),
        ?_, rfl, Or.inr ⟨?_, rfl⟩⟩
      · simp [stateQueryStep, hp, hr]
      · intro s hs
        rw [goodReply, hr] at hs
        simp only [Except.ok.injEq] at hs
        have h2 := congrArg List.length hs
        simp at h2
    | [x] =>
      by_cases h1 : x = "Playing"
      · refine ⟨mapInsert q State.PLAYING acc, emit t (BusEvent.stateQueryEv q),
          ?_, rfl, Or.inl ⟨State.PLAYING, ?_, rfl⟩⟩
        · simp [stateQueryStep, hp, hr, h1]
        · rw [goodReply, hr, h1]
          rfl
      · by_cases h2 : x = "Paused"
        · refine ⟨mapInsert q State.PAUSED acc, emit t (BusEvent.stateQueryEv q),
            ?_, rfl, Or.inl ⟨State.PAUSED, ?_, rfl⟩⟩
          · simp [stateQueryStep, hp, hr, h1, h2]
          · rw [goodReply, hr, h2]
            rfl
        · by_cases h3 : x = "Stopped"
          · refine ⟨mapInsert q State.STOPPED acc, emit t (BusEvent.stateQueryEv q),
              ?_, rfl, Or.inl ⟨State.STOPPED, ?_, rfl⟩⟩
            · simp [stateQueryStep, hp, hr, h1, h2, h3]
            · rw [goodReply, hr, h3]
              rfl
          · refine ⟨acc,
              say (emit t (BusEvent.stateQueryEv q)) ("Unknown state " ++ x ++ " of " ++ q),
              ?_, rfl, Or.inr ⟨?_, rfl⟩⟩
            · simp [stateQueryStep, hp, hr, h1, h2, h3]
            · intro s hs
              rw [goodReply, hr] at hs
              simp only [Except.ok.injEq, List.cons.injEq, and_true] at hs
              cases s
              · exact h3 hs
              · exact h2 hs
              · exact h1 hs

theorem aggregateAux_ok_mem (env : Env) :
    ∀ (players : List String) (acc : PlayerStates) (t : Trace)
      (res : PlayerStates) (t2 : Trace),
      players.Nodup →
      (∀ p s, (p, s) ∈ acc → p ∉ players) →
      SortedKeys acc →
      getMediaPlayerStatesAux env players acc t = Except.ok (res, t2) →
      SortedKeys res ∧
      (∀ p s, ((p, s) ∈ res ↔
        ((p, s) ∈ acc ∧ p ∉ players) ∨ (p ∈ players ∧ goodReply env p s)))
  | [], acc, t, res, t2, _, _, hsort, h => by
    simp only [getMediaPlayerStatesAux, Except.ok.injEq, Prod.mk.injEq] at h
    rw [← h.1]
    exact ⟨hsort, by simp⟩
  | q :: players, acc, t, res, t2, hnd, hdisj, hsort, h => by
    have hqnotin : q ∉ players := (List.nodup_cons.mp hnd).1
    have hnd2 : players.Nodup := (List.nodup_cons.mp hnd).2
    simp only [getMediaPlayerStatesAux] at h
    cases hproxy : env.propProxyOk q with
    | false =>
      rw [stateQueryStep_proxyFail env q acc t hproxy] at h
      exact Except.noConfusion h
    | true =>
      obtain ⟨acc2, t3, hstep, _, hcases⟩ := stateQueryStep_spec env q acc t hproxy
      rw [hstep] at h
      rcases hcases with ⟨s0, hg, hacc2⟩ | ⟨hbad, hacc2⟩
      · subst hacc2
        have hdisj2 : ∀ p s, (p, s) ∈ mapInsert q s0 acc → p ∉ players := by
          intro p s hps
          rcases mem_mapInsert_weak hps with ⟨hpq, _⟩ | hps2
          · rw [hpq]
            exact hqnotin
          · intro hin
            exact hdisj p s hps2 (List.mem_cons_of_mem q hin)
        have ih := aggregateAux_ok_mem env players (mapInsert q s0 acc) t3 res t2
          hnd2 hdisj2 (sortedKeys_mapInsert q s0 acc hsort) h
        refine ⟨ih.1, ?_⟩
        intro p s
        rw [ih.2 p s, mem_mapInsert q s0 acc hsort p s]
        have hgq2 : goodReply env q s → s = s0 := by
          intro hs2
          rw [goodReply, hg] at hs2
          have hx : [stateText s0] = [stateText s] := by
            injection hs2
          exact (stateText_inj (by injection hx)).symm
        have hgq3 : s = s0 → goodReply env q s := by
          intro hs2
          rw [hs2]
          exact hg
        by_cases hpq : p = q
        · subst hpq
          have hnacc : ∀ s2, (p, s2) ∈ acc → False := by
            intro s2 hs2
            exact hdisj p s2 hs2 (List.mem_cons_self p players)
          have hnacc2 : (p, s) ∉ acc := fun hm => hnacc s hm
          have hpp : p = p := rfl
          simp only [List.mem_cons]
          tauto
        · simp only [List.mem_cons]
          tauto
      · rw [hacc2] at h
        have hdisj2 : ∀ p s, (p, s) ∈ acc → p ∉ players := by
          intro p s hps hin
          exact hdisj p s hps (List.mem_cons_of_mem q hin)
        have ih := aggregateAux_ok_mem env players acc t3 res t2 hnd2 hdisj2 hsort h
        refine ⟨ih.1, ?_⟩
        intro p s
        rw [ih.2 p s]
        by_cases hpq : p = q
        · subst hpq
          have hnacc2 : (p, s) ∉ acc := fun hm =>
            hdisj p s hm (List.mem_cons_self p players)
          have hbads : ¬ goodReply env p s := hbad s
          simp only [List.mem_cons]
          tauto
        · simp only [List.mem_cons]
          tauto

theorem aggregateAux_keys (env : Env) :
    ∀ (players : List String) (acc : PlayerStates) (t : Trace)
      (res : PlayerStates) (t2 : Trace),
      getMediaPlayerStatesAux env players acc t = Except.ok (res, t2) →
      ∀ p s, (p, s) ∈ res → p ∈ players ∨ (p, s) ∈ acc
  | [], acc, t, res, t2, h, p, s => by
    simp only [getMediaPlayerStatesAux, Except.ok.injEq, Prod.mk.injEq] at h
    rw [← h.1]
    exact fun hm => Or.inr hm
  | q :: players, acc, t, res, t2, h, p, s => by
    simp only [getMediaPlayerStatesAux] at h
    cases hproxy : env.propProxyOk q with
    | false =>
      rw [stateQueryStep_proxyFail env q acc t hproxy] at h
      exact Except.noConfusion h
    | true =>
      obtain ⟨acc2, t3, hstep, _, hcases⟩ := stateQueryStep_spec env q acc t hproxy
      rw [hstep] at h
      intro hm
      have ih := aggregateAux_keys env players acc2 t3 res t2 h p s hm
      rcases hcases with ⟨s0, _, hacc2⟩ | ⟨_, hacc2⟩
      · subst hacc2
        rcases ih with ih | ih
        · exact Or.inl (List.mem_cons_of_mem q ih)
        · rcases mem_mapInsert_weak ih with ⟨hpq, _⟩ | ih2
          · rw [hpq]
            exact Or.inl (List.mem_cons_self q players)
          · exact Or.inr ih2
      · subst hacc2
        rcases ih with ih | ih
        · exact Or.inl (List.mem_cons_of_mem q ih)
        · exact Or.inr ih

theorem aggregateAux_ok_of_proxyOk (env : Env)
    (hp : ∀ p, env.propProxyOk p = true) :
    ∀ (players : List String) (acc : PlayerStates) (t : Trace),
      ∃ res t2,
        getMediaPlayerStatesAux env players acc t = Except.ok (res, t2) ∧
        t2.events = t.events ++ players.map BusEvent.stateQueryEv
  | [], acc, t => ⟨acc, t, rfl, by simp⟩
  | q :: players, acc, t => by
    obtain ⟨acc2, t3, hstep, hev, _⟩ := stateQueryStep_spec env q acc t (hp q)
    obtain ⟨res, t2, haux, hev2⟩ := aggregateAux_ok_of_proxyOk env hp players acc2 t3
    refine ⟨res, t2, ?_, ?_⟩
    · simp only [getMediaPlayerStatesAux, hstep]
      exact haux
    · rw [hev2, hev]
      simp

/-! ### Whole-program lemmas -/

theorem evalActions_none_of_unknown (method : String) (states : PlayerStates)
    (hm : method ∉ (["play", "pause", "playpause", "stop", "next", "prev"] : List String)) :
    evalActions method states = none := by
  simp only [List.mem_cons, List.not_mem_nil, or_false, not_or] at hm
  obtain ⟨h1, h2, h3, h4, h5, h6⟩ := hm
  simp [evalActions, h1, h2, h3, h4, h5, h6]

/-- C1 (amended): if the registrar `ListNames` call fails at the transport
level, the failure is caught and logged, discovery returns the empty player
set, and the program prints "no player found." and exits 0 — it is NOT
fatal; only registrar proxy creation failure is (exit 2). -/
theorem registrar_call_failure_logged_and_continues (env : Env) (pn cmd e : String)
    (hargs : env.progArgs = [pn, cmd])
    (hbus : env.busAvailable = true)
    (hreg : env.registrarProxyOk = true)
    (hln : env.listNamesReply = Except.error e) :
    runMain env =
      (0, ⟨[BusEvent.connectEv, BusEvent.listNamesEv],
           ["Got an error: " ++ e ++ ".", "no player found."]⟩) := by
  simp [runMain, eval_args, getMediaPlayerInstances, emit, say, hargs, hbus, hreg, hln]

/-- C7 (amended): an invocation whose single command argument is
unrecognized still exits 127 with the usage text, but only after the program
has connected to the bus, enumerated the registrar, and queried the state of
every discovered player (here: discovery non-empty, property proxies all
create successfully); no dispatch call is ever made. -/
theorem unknown_command_rejected_after_aggregation (env : Env) (pn method : String) (names : List String)
    (hargs : env.progArgs = [pn, method])
    (hm : method ∉ (["play", "pause", "playpause", "stop", "next", "prev"] : List String))
    (hbus : env.busAvailable = true)
    (hreg : env.registrarProxyOk = true)
    (hln : env.listNamesReply = Except.ok names)
    (hne : filterPlayers names ≠ [])
    (hprox : ∀ p, env.propProxyOk p = true) :
    (runMain env).1 = 127 ∧
    (runMain env).2.events =
      BusEvent.connectEv :: BusEvent.listNamesEv ::
        (filterPlayers names).map BusEvent.stateQueryEv ∧
    usageLine pn ∈ (runMain env).2.out := by
  obtain ⟨res, t2, haux, hev⟩ :=
    aggregateAux_ok_of_proxyOk env hprox (filterPlayers names)
      [] (emit (emit ⟨[], []⟩ BusEvent.connectEv) BusEvent.listNamesEv)
  have hnone := evalActions_none_of_unknown method res hm
  have hie : (filterPlayers names).isEmpty = false := by
    cases hx : (filterPlayers names).isEmpty
    · rfl
    · exact absurd (List.isEmpty_iff.mp hx) hne
  have hrun : runMain env =
      (127, say (say t2 ("Unknown method " ++ method)) (usageLine pn)) := by
    simp [runMain, eval_args, getMediaPlayerInstances, hargs, hbus, hreg, hln, hie,
      haux, hnone]
  rw [hrun]
  refine ⟨rfl, ?_, ?_⟩
  · simp [say, hev, emit]
  · simp [say]

/-- C1 counterexample: in `envLnFail` the registrar `ListNames` call fails at
the transport level, yet the program exits 0 and prints "no player found." —
it continues exactly as if discovery had succeeded with an empty player set,
refuting "the whole program fails fast and terminates fatally". -/
theorem registrar_call_failure_fatal_cex :
    (runMain envLnFail).1 = 0 ∧ "no player found." ∈ (runMain envLnFail).2.out := by
  decide

/-- Witness for the amended C1 theorem, at the concrete session `envLnFail`. -/
theorem registrar_call_failure_logged_and_continues_witness :
    runMain envLnFail =
      (0, ⟨[BusEvent.connectEv, BusEvent.listNamesEv],
           ["Got an error: " ++ "Timeout was reached" ++ ".", "no player found."]⟩) :=
  registrar_call_failure_logged_and_continues envLnFail "mediaplayerctl" "play"
    "Timeout was reached" rfl rfl rfl rfl

/-- C7 counterexample: in `envUnknownCmd` the command is the unrecognized
string "foo", yet the program performs bus interactions (it connects,
enumerates the registrar, and queries the state of the discovered player)
before exiting, refuting "never attempts any bus interaction". -/
theorem unknown_command_queries_bus_cex :
    (runMain envUnknownCmd).1 = 127 ∧
    BusEvent.stateQueryEv "org.mpris.MediaPlayer2.vlc" ∈ (runMain envUnknownCmd).2.events := by
  decide

/-- Witness for the amended C7 theorem, at the concrete session
`envUnknownCmd`. -/
theorem unknown_command_rejected_after_aggregation_witness :
    (runMain envUnknownCmd).1 = 127 ∧
    (runMain envUnknownCmd).2.events =
      BusEvent.connectEv :: BusEvent.listNamesEv ::
        (filterPlayers ["org.mpris.MediaPlayer2.vlc", "org.freedesktop.DBus"]).map
          BusEvent.stateQueryEv ∧
    usageLine "mediaplayerctl" ∈ (runMain envUnknownCmd).2.out :=
  unknown_command_rejected_after_aggregation envUnknownCmd "mediaplayerctl" "foo"
    ["org.mpris.MediaPlayer2.vlc", "org.freedesktop.DBus"]
    rfl (by decide) rfl rfl rfl (by decide) (fun _ => rfl)

/-- C2: for every StateMap, `resolve("pause", states)` yields the empty plan
when no entry is Playing; otherwise its key set is exactly the Playing
subset, every key mapped to "Pause". -/
theorem pause_targets_exactly_playing (states : PlayerStates) :
    ∃ plan, evalActions "pause" states = some plan ∧
      ((∀ p, (p, State.PLAYING) ∉ states) → plan = []) ∧
      (∀ p, (∃ v, (p, v) ∈ plan) ↔ (p, State.PLAYING) ∈ states) ∧
      (∀ p v, (p, v) ∈ plan → v = "Pause") := by
  refine ⟨(findPlayer states [State.PLAYING]).foldl (fun r p => mapInsert p "Pause" r) [],
    ?_, ?_, ?_, ?_⟩
  · simp [evalActions]
  · intro h
    have hnil : findPlayer states [State.PLAYING] = [] := by
      rw [findPlayer_eq_nil]
      intro p s hps hs
      rcases List.mem_cons.mp hs with hs | hs
      · subst hs
        exact h p hps
      · simp at hs
    rw [hnil]
    rfl
  · intro p
    constructor
    · rintro ⟨v, hv⟩
      have h2 := (foldl_mapInsert_mem "Pause" (findPlayer states [State.PLAYING]) []
        List.Pairwise.nil p v).mp hv
      rcases h2 with ⟨hp, _⟩ | ⟨hp, _⟩
      · rcases (mem_findPlayer states [State.PLAYING] p).mp hp with ⟨s, hs1, hs2⟩
        rcases List.mem_cons.mp hs2 with hs2 | hs2
        · subst hs2
          exact hs1
        · simp at hs2
      · simp at hp
    · intro hp
      refine ⟨"Pause",
        (foldl_mapInsert_mem "Pause" _ [] List.Pairwise.nil p "Pause").mpr ?_⟩
      left
      exact ⟨(mem_findPlayer states [State.PLAYING] p).mpr ⟨State.PLAYING, hp, by simp⟩, rfl⟩
  · intro p v hv
    have h2 := (foldl_mapInsert_mem "Pause" (findPlayer states [State.PLAYING]) []
      List.Pairwise.nil p v).mp hv
    rcases h2 with ⟨_, hvv⟩ | ⟨hp, _⟩
    · exact hvv
    · simp at hp

/-- Witness for C2 at the concrete state map `statesMixed`. -/
theorem pause_targets_exactly_playing_witness :
    ∃ plan, evalActions "pause" statesMixed = some plan ∧
      ((∀ p, (p, State.PLAYING) ∉ statesMixed) → plan = []) ∧
      (∀ p, (∃ v, (p, v) ∈ plan) ↔ (p, State.PLAYING) ∈ statesMixed) ∧
      (∀ p v, (p, v) ∈ plan → v = "Pause") :=
  pause_targets_exactly_playing statesMixed

/-! ### Candidate-set helpers -/

theorem isEmpty_false_of_ne_nil {α : Type} {l : List α} (h : l ≠ []) :
    l.isEmpty = false := by
  cases hx : l.isEmpty
  · rfl
  · exact absurd (List.isEmpty_iff.mp hx) h

theorem findPlayer_single_eq_nil (states : PlayerStates) (s : State) :
    findPlayer states [s] = [] ↔ ∀ p, (p, s) ∉ states := by
  rw [findPlayer_eq_nil]
  constructor
  · intro h p hp
    exact h p s hp (by simp)
  · intro h p s2 hp hs2
    rcases List.mem_cons.mp hs2 with h2 | h2
    · subst h2
      exact h p hp
    · simp at h2

theorem headD_findPlayer_single (states : PlayerStates) (s : State)
    (h : findPlayer states [s] ≠ []) :
    ((findPlayer states [s]).headD "", s) ∈ states := by
  obtain ⟨hmem, -⟩ := sorted_headD_min (findPlayer_sorted states [s]) h
  rcases (mem_findPlayer states [s] _).mp hmem with ⟨s2, hs1, hs2⟩
  rcases List.mem_cons.mp hs2 with h2 | h2
  · subst h2
    exact hs1
  · simp at h2

/-- C4: for every StateMap, the `resolve("stop", states)` plan key set is
exactly the union of the Playing and Paused subsets, every key mapped to
"Stop"; Stopped or absent players are never targeted. -/
theorem stop_targets_playing_and_paused (states : PlayerStates) :
    ∃ plan, evalActions "stop" states = some plan ∧
      (∀ p, (∃ v, (p, v) ∈ plan) ↔
        ((p, State.PLAYING) ∈ states ∨ (p, State.PAUSED) ∈ states)) ∧
      (∀ p v, (p, v) ∈ plan → v = "Stop") := by
  refine ⟨(findPlayer states [State.PLAYING, State.PAUSED]).foldl
      (fun r p => mapInsert p "Stop" r) [], ?_, ?_, ?_⟩
  · simp [evalActions]
  · intro p
    constructor
    · rintro ⟨v, hv⟩
      rcases (foldl_mapInsert_mem "Stop" _ [] List.Pairwise.nil p v).mp hv with
        ⟨hp, _⟩ | ⟨hp, _⟩
      · rcases (mem_findPlayer states [State.PLAYING, State.PAUSED] p).mp hp with
          ⟨s, hs1, hs2⟩
        rcases List.mem_cons.mp hs2 with hs2 | hs2
        · subst hs2
          exact Or.inl hs1
        · rcases List.mem_cons.mp hs2 with hs2 | hs2
          · subst hs2
            exact Or.inr hs1
          · simp at hs2
      · simp at hp
    · intro hp
      refine ⟨"Stop", (foldl_mapInsert_mem "Stop" _ [] List.Pairwise.nil p "Stop").mpr ?_⟩
      left
      refine ⟨(mem_findPlayer states _ p).mpr ?_, rfl⟩
      rcases hp with hp | hp
      · exact ⟨State.PLAYING, hp, by simp⟩
      · exact ⟨State.PAUSED, hp, by simp⟩
  · intro p v hv
    rcases (foldl_mapInsert_mem "Stop" _ [] List.Pairwise.nil p v).mp hv with
      ⟨_, hvv⟩ | ⟨hp, _⟩
    · exact hvv
    · simp at hp

/-- Witness for C4 at the concrete state map `statesMixed`. -/
theorem stop_targets_playing_and_paused_witness :
    ∃ plan, evalActions "stop" statesMixed = some plan ∧
      (∀ p, (∃ v, (p, v) ∈ plan) ↔
        ((p, State.PLAYING) ∈ statesMixed ∨ (p, State.PAUSED) ∈ statesMixed)) ∧
      (∀ p v, (p, v) ∈ plan → v = "Stop") :=
  stop_targets_playing_and_paused statesMixed

/-- C5: `resolve("playpause", states)` equals `resolve("pause", states)`
when at least one player is Playing, and `resolve("play", states)`
otherwise. -/
theorem playpause_refines_pause_or_play (states : PlayerStates) :
    ((∃ p, (p, State.PLAYING) ∈ states) →
      evalActions "playpause" states = evalActions "pause" states) ∧
    ((∀ p, (p, State.PLAYING) ∉ states) →
      evalActions "playpause" states = evalActions "play" states) := by
  constructor
  · rintro ⟨p, hp⟩
    have hne : findPlayer states [State.PLAYING] ≠ [] := by
      intro h
      exact (findPlayer_single_eq_nil states State.PLAYING).mp h p hp
    simp [evalActions, isEmpty_false_of_ne_nil hne]
  · intro h
    have hnil : findPlayer states [State.PLAYING] = [] :=
      (findPlayer_single_eq_nil states State.PLAYING).mpr h
    simp [evalActions, hnil]

/-- Witness for C5 at the concrete state map `statesMixed` (which has a
Playing entry). -/
theorem playpause_refines_pause_or_play_witness :
    evalActions "playpause" statesMixed = evalActions "pause" statesMixed :=
  (playpause_refines_pause_or_play statesMixed).1
    ⟨"org.mpris.MediaPlayer2.clementine", by decide⟩

/-- C6: `resolve("next", states)` targets exactly one member of the Playing
subset with "Next" when one exists and is empty otherwise; `resolve("prev",
states)` is identical with "Previous". -/
theorem next_prev_target_single_playing (states : PlayerStates) :
    ((∃ p, (p, State.PLAYING) ∈ states) →
      ∃ p, (p, State.PLAYING) ∈ states ∧
        evalActions "next" states = some [(p, "Next")] ∧
        evalActions "prev" states = some [(p, "Previous")]) ∧
    ((∀ p, (p, State.PLAYING) ∉ states) →
      evalActions "next" states = some [] ∧ evalActions "prev" states = some []) := by
  constructor
  · rintro ⟨q, hq⟩
    have hne : findPlayer states [State.PLAYING] ≠ [] := by
      intro h
      exact (findPlayer_single_eq_nil states State.PLAYING).mp h q hq
    refine ⟨(findPlayer states [State.PLAYING]).headD "",
      headD_findPlayer_single states State.PLAYING hne, ?_, ?_⟩
    · simp [evalActions, isEmpty_false_of_ne_nil hne, mapInsert]
    · simp [evalActions, isEmpty_false_of_ne_nil hne, mapInsert]
  · intro h
    have hnil : findPlayer states [State.PLAYING] = [] :=
      (findPlayer_single_eq_nil states State.PLAYING).mpr h
    constructor
    · simp [evalActions, hnil]
    · simp [evalActions, hnil]

/-- Witness for C6 at the concrete state map `statesMixed`. -/
theorem next_prev_target_single_playing_witness :
    ∃ p, (p, State.PLAYING) ∈ statesMixed ∧
      evalActions "next" statesMixed = some [(p, "Next")] ∧
      evalActions "prev" statesMixed = some [(p, "Previous")] :=
  (next_prev_target_single_playing statesMixed).1
    ⟨"org.mpris.MediaPlayer2.clementine", by decide⟩

/-- C3: `resolve("play", states)` does nothing when a player is Playing;
otherwise it targets exactly one Paused player, falling back to a Stopped
player, with "Play"; the plan never has more than one entry. -/
theorem play_targets_single_candidate (states : PlayerStates) :
    ∃ plan, evalActions "play" states = some plan ∧ plan.length ≤ 1 ∧
      ((∃ p, (p, State.PLAYING) ∈ states) → plan = []) ∧
      ((∀ p, (p, State.PLAYING) ∉ states) →
        (((∃ p, (p, State.PAUSED) ∈ states) →
            ∃ p, (p, State.PAUSED) ∈ states ∧ plan = [(p, "Play")]) ∧
         ((∀ p, (p, State.PAUSED) ∉ states) → (∃ p, (p, State.STOPPED) ∈ states) →
            ∃ p, (p, State.STOPPED) ∈ states ∧ plan = [(p, "Play")]) ∧
         ((∀ p, (p, State.PAUSED) ∉ states) → (∀ p, (p, State.STOPPED) ∉ states) →
            plan = []))) := by
  by_cases h1 : findPlayer states [State.PLAYING] = []
  · by_cases h2 : findPlayer states [State.PAUSED] = []
    · by_cases h3 : findPlayer states [State.STOPPED] = []
      · refine ⟨[], by simp [evalActions, h1, h2, h3], by simp, fun _ => rfl, ?_⟩
        intro _
        refine ⟨?_, ?_, fun _ _ => rfl⟩
        · rintro ⟨p, hp⟩
          exact absurd hp ((findPlayer_single_eq_nil states State.PAUSED).mp h2 p)
        · rintro _ ⟨p, hp⟩
          exact absurd hp ((findPlayer_single_eq_nil states State.STOPPED).mp h3 p)
      · refine ⟨[((findPlayer states [State.STOPPED]).headD "", "Play")],
          by simp [evalActions, h1, h2, isEmpty_false_of_ne_nil h3, mapInsert],
          by simp, ?_, ?_⟩
        · rintro ⟨p, hp⟩
          exact absurd hp ((findPlayer_single_eq_nil states State.PLAYING).mp h1 p)
        · intro _
          refine ⟨?_, ?_, ?_⟩
          · rintro ⟨p, hp⟩
            exact absurd hp ((findPlayer_single_eq_nil states State.PAUSED).mp h2 p)
          · intro _ _
            exact ⟨(findPlayer states [State.STOPPED]).headD "",
              headD_findPlayer_single states State.STOPPED h3, rfl⟩
          · intro _ hns
            exact absurd ((findPlayer_single_eq_nil states State.STOPPED).mpr hns) h3
    · refine ⟨[((findPlayer states [State.PAUSED]).headD "", "Play")],
        by simp [evalActions, h1, isEmpty_false_of_ne_nil h2, mapInsert],
        by simp, ?_, ?_⟩
      · rintro ⟨p, hp⟩
        exact absurd hp ((findPlayer_single_eq_nil states State.PLAYING).mp h1 p)
      · intro _
        refine ⟨?_, ?_, ?_⟩
        · intro _
          exact ⟨(findPlayer states [State.PAUSED]).headD "",
            headD_findPlayer_single states State.PAUSED h2, rfl⟩
        · intro hnp _
          exact absurd ((findPlayer_single_eq_nil states State.PAUSED).mpr hnp) h2
        · intro hnp _
          exact absurd ((findPlayer_single_eq_nil states State.PAUSED).mpr hnp) h2
  · refine ⟨[], by simp [evalActions, isEmpty_false_of_ne_nil h1], by simp,
      fun _ => rfl, ?_⟩
    intro h
    exact absurd ((findPlayer_single_eq_nil states State.PLAYING).mpr h) h1

/-- Witness for C3 at the concrete state map `statesPaused` (nothing
playing, two paused players). -/
theorem play_targets_single_candidate_witness :
    ∃ plan, evalActions "play" statesPaused = some plan ∧ plan.length ≤ 1 ∧
      ((∃ p, (p, State.PLAYING) ∈ statesPaused) → plan = []) ∧
      ((∀ p, (p, State.PLAYING) ∉ statesPaused) →
        (((∃ p, (p, State.PAUSED) ∈ statesPaused) →
            ∃ p, (p, State.PAUSED) ∈ statesPaused ∧ plan = [(p, "Play")]) ∧
         ((∀ p, (p, State.PAUSED) ∉ statesPaused) →
            (∃ p, (p, State.STOPPED) ∈ statesPaused) →
            ∃ p, (p, State.STOPPED) ∈ statesPaused ∧ plan = [(p, "Play")]) ∧
         ((∀ p, (p, State.PAUSED) ∉ statesPaused) →
            (∀ p, (p, State.STOPPED) ∉ statesPaused) →
            plan = []))) :=
  play_targets_single_candidate statesPaused

/-- C10: in every "pick exactly one" case (`play` and `playpause` with
nothing Playing, `next`/`prev` with something Playing) the single targeted
player is the lexicographically smallest member of the respective candidate
set (`std::set` iteration order begins at the smallest key). -/
theorem single_target_pick_is_lex_smallest (states : PlayerStates) :
    ((findPlayer states [State.PLAYING] = []) → (findPlayer states [State.PAUSED] ≠ []) →
      ∃ p, evalActions "play" states = some [(p, "Play")] ∧
           evalActions "playpause" states = some [(p, "Play")] ∧
           p ∈ findPlayer states [State.PAUSED] ∧
           ∀ q ∈ findPlayer states [State.PAUSED], p = q ∨ strLt p q = true) ∧
    ((findPlayer states [State.PLAYING] = []) → (findPlayer states [State.PAUSED] = []) →
      (findPlayer states [State.STOPPED] ≠ []) →
      ∃ p, evalActions "play" states = some [(p, "Play")] ∧
           evalActions "playpause" states = some [(p, "Play")] ∧
           p ∈ findPlayer states [State.STOPPED] ∧
           ∀ q ∈ findPlayer states [State.STOPPED], p = q ∨ strLt p q = true) ∧
    ((findPlayer states [State.PLAYING] ≠ []) →
      ∃ p, evalActions "next" states = some [(p, "Next")] ∧
           evalActions "prev" states = some [(p, "Previous")] ∧
           p ∈ findPlayer states [State.PLAYING] ∧
           ∀ q ∈ findPlayer states [State.PLAYING], p = q ∨ strLt p q = true) := by
  refine ⟨?_, ?_, ?_⟩
  · intro h1 h2
    obtain ⟨hmem, hmin⟩ :=
      sorted_headD_min (findPlayer_sorted states [State.PAUSED]) h2
    exact ⟨(findPlayer states [State.PAUSED]).headD "",
      by simp [evalActions, h1, isEmpty_false_of_ne_nil h2, mapInsert],
      by simp [evalActions, h1, isEmpty_false_of_ne_nil h2, mapInsert],
      hmem, hmin⟩
  · intro h1 h2 h3
    obtain ⟨hmem, hmin⟩ :=
      sorted_headD_min (findPlayer_sorted states [State.STOPPED]) h3
    exact ⟨(findPlayer states [State.STOPPED]).headD "",
      by simp [evalActions, h1, h2, isEmpty_false_of_ne_nil h3, mapInsert],
      by simp [evalActions, h1, h2, isEmpty_false_of_ne_nil h3, mapInsert],
      hmem, hmin⟩
  · intro h1
    obtain ⟨hmem, hmin⟩ :=
      sorted_headD_min (findPlayer_sorted states [State.PLAYING]) h1
    exact ⟨(findPlayer states [State.PLAYING]).headD "",
      by simp [evalActions, isEmpty_false_of_ne_nil h1, mapInsert],
      by simp [evalActions, isEmpty_false_of_ne_nil h1, mapInsert],
      hmem, hmin⟩

/-- Witness for C10 at `statesPaused`: nothing playing, two paused players;
the smaller name is picked. -/
theorem single_target_pick_is_lex_smallest_witness :
    ∃ p, evalActions "play" statesPaused = some [(p, "Play")] ∧
         evalActions "playpause" statesPaused = some [(p, "Play")] ∧
         p ∈ findPlayer statesPaused [State.PAUSED] ∧
         ∀ q ∈ findPlayer statesPaused [State.PAUSED], p = q ∨ strLt p q = true :=
  (single_target_pick_is_lex_smallest statesPaused).1 (by decide) (by decide)

theorem evalActions_keys (method : String) (states : PlayerStates) (plan : PlayerActions)
    (h : evalActions method states = some plan) :
    ∀ p v, (p, v) ∈ plan → ∃ s, (p, s) ∈ states := by
  intro p v hm
  have hsingleton : ∀ (s0 : State) (w : String), findPlayer states [s0] ≠ [] →
      (p, v) ∈ [((findPlayer states [s0]).headD "", w)] → ∃ s, (p, s) ∈ states := by
    intro s0 w hne hmem
    rcases List.mem_cons.mp hmem with hmem | hmem
    · have hp : p = (findPlayer states [s0]).headD "" := by
        have h3 := congrArg Prod.fst hmem
        simpa using h3
      rw [hp]
      exact ⟨s0, headD_findPlayer_single states s0 hne⟩
    · simp at hmem
  have hfold : ∀ (sts : List State) (w : String),
      (p, v) ∈ (findPlayer states sts).foldl (fun r q => mapInsert q w r) [] →
      ∃ s, (p, s) ∈ states := by
    intro sts w hmem
    rcases (foldl_mapInsert_mem w (findPlayer states sts) []
      List.Pairwise.nil p v).mp hmem with ⟨hp, _⟩ | ⟨hp, _⟩
    · rcases (mem_findPlayer states sts p).mp hp with ⟨s, hs1, _⟩
      exact ⟨s, hs1⟩
    · simp at hp
  have hplayBody : ∀ (w : String),
      evalActions method states =
        some (if (findPlayer states [State.PLAYING]).isEmpty then
                let player := findPlayer states [State.PAUSED]
                let player :=
                  if player.isEmpty then findPlayer states [State.STOPPED] else player
                if player.isEmpty then [] else mapInsert (player.headD "") w []
              else []) →
      ∃ s, (p, s) ∈ states := by
    intro w hbody
    by_cases h1 : findPlayer states [State.PLAYING] = []
    · by_cases h2 : findPlayer states [State.PAUSED] = []
      · by_cases h3 : findPlayer states [State.STOPPED] = []
        · rw [h1, h2, h3] at hbody
          simp only [List.isEmpty_nil, if_true] at hbody
          rw [hbody] at h
          have hpl := Option.some.inj h
          rw [← hpl] at hm
          simp at hm
        · rw [h1, h2] at hbody
          simp only [List.isEmpty_nil, if_true, isEmpty_false_of_ne_nil h3,
            if_false, Bool.false_eq_true, mapInsert] at hbody
          rw [hbody] at h
          have hpl := Option.some.inj h
          rw [← hpl] at hm
          exact hsingleton State.STOPPED w h3 hm
      · rw [h1] at hbody
        simp only [List.isEmpty_nil, if_true, isEmpty_false_of_ne_nil h2,
          if_false, Bool.false_eq_true, mapInsert] at hbody
        rw [hbody] at h
        have hpl := Option.some.inj h
        rw [← hpl] at hm
        exact hsingleton State.PAUSED w h2 hm
    · rw [isEmpty_false_of_ne_nil h1] at hbody
      simp only [Bool.false_eq_true, if_false] at hbody
      rw [hbody] at h
      have hpl := Option.some.inj h
      rw [← hpl] at hm
      simp at hm
  by_cases hplay : method = "play"
  · subst hplay
    exact hplayBody "Play" (by simp [evalActions])
  · by_cases hpause : method = "pause"
    · subst hpause
      have heq : evalActions "pause" states =
          some ((findPlayer states [State.PLAYING]).foldl
            (fun r q => mapInsert q "Pause" r) []) := by
        simp [evalActions]
      rw [heq] at h
      have hpl := Option.some.inj h
      rw [← hpl] at hm
      exact hfold [State.PLAYING] "Pause" hm
    · by_cases hpp : method = "playpause"
      · subst hpp
        by_cases h1 : findPlayer states [State.PLAYING] = []
        · refine hplayBody "Play" ?_
          rw [h1]
          simp [evalActions, h1]
        · have heq : evalActions "playpause" states =
              some ((findPlayer states [State.PLAYING]).foldl
                (fun r q => mapInsert q "Pause" r) []) := by
            simp [evalActions, isEmpty_false_of_ne_nil h1]
          rw [heq] at h
          have hpl := Option.some.inj h
          rw [← hpl] at hm
          exact hfold [State.PLAYING] "Pause" hm
      · by_cases hstop : method = "stop"
        · subst hstop
          have heq : evalActions "stop" states =
              some ((findPlayer states [State.PLAYING, State.PAUSED]).foldl
                (fun r q => mapInsert q "Stop" r) []) := by
            simp [evalActions]
          rw [heq] at h
          have hpl := Option.some.inj h
          rw [← hpl] at hm
          exact hfold [State.PLAYING, State.PAUSED] "Stop" hm
        · by_cases hnext : method = "next"
          · subst hnext
            by_cases h1 : findPlayer states [State.PLAYING] = []
            · have heq : evalActions "next" states = some [] := by
                simp [evalActions, h1]
              rw [heq] at h
              have hpl := Option.some.inj h
              rw [← hpl] at hm
              simp at hm
            · have heq : evalActions "next" states =
                  some [((findPlayer states [State.PLAYING]).headD "", "Next")] := by
                simp [evalActions, isEmpty_false_of_ne_nil h1, mapInsert]
              rw [heq] at h
              have hpl := Option.some.inj h
              rw [← hpl] at hm
              exact hsingleton State.PLAYING "Next" h1 hm
          · by_cases hprev : method = "prev"
            · subst hprev
              by_cases h1 : findPlayer states [State.PLAYING] = []
              · have heq : evalActions "prev" states = some [] := by
                  simp [evalActions, h1]
                rw [heq] at h
                have hpl := Option.some.inj h
                rw [← hpl] at hm
                simp at hm
              · have heq : evalActions "prev" states =
                    some [((findPlayer states [State.PLAYING]).headD "", "Previous")] := by
                  simp [evalActions, isEmpty_false_of_ne_nil h1, mapInsert]
                rw [heq] at h
                have hpl := Option.some.inj h
                rw [← hpl] at hm
                exact hsingleton State.PLAYING "Previous" h1 hm
            · have hnone := evalActions_none_of_unknown method states
                (by simp [hplay, hpause, hpp, hstop, hnext, hprev])
              rw [hnone] at h
              exact Option.noConfusion h

/-- C9: every key of the StateMap produced by aggregation is a member of the
PlayerSet, and every key of the ActionPlan produced by resolution is a key
of the StateMap — neither stage invents new players. -/
theorem pipeline_never_invents_players (env : Env) (players : PlayerSet)
    (t : Trace) (res : PlayerStates) (t2 : Trace) (method : String)
    (plan : PlayerActions)
    (hagg : getMediaPlayerStatesAux env players [] t = Except.ok (res, t2))
    (hres : evalActions method res = some plan) :
    (∀ p s, (p, s) ∈ res → p ∈ players) ∧
    (∀ p v, (p, v) ∈ plan → ∃ s, (p, s) ∈ res) := by
  constructor
  · intro p s hm
    rcases aggregateAux_keys env players [] t res t2 hagg p s hm with h | h
    · exact h
    · simp at h
  · exact evalActions_keys method res plan hres

/-- C8: for every player whose state query succeeds, aggregation classifies
the reply text by exactly "Playing" → Playing, "Paused" → Paused,
"Stopped" → Stopped; a player whose reply has arity other than one string or
any other text (or whose query failed) is excluded from the StateMap, and
membership is decided per player by the reply of that player alone, so one
failing player never affects the entries of the others. -/
theorem aggregation_classifies_exactly (env : Env) (players : PlayerSet)
    (t : Trace) (res : PlayerStates) (t2 : Trace)
    (hnd : players.Nodup)
    (h : getMediaPlayerStatesAux env players [] t = Except.ok (res, t2)) :
    ∀ p s, ((p, s) ∈ res ↔ p ∈ players ∧ env.propReply p = Except.ok [stateText s]) := by
  have hm := (aggregateAux_ok_mem env players [] t res t2 hnd (by simp)
    List.Pairwise.nil h).2
  intro p s
  rw [hm p s]
  simp [goodReply]

/-- Witness for C8: the concrete session `envAgg`, instantiated at the
playing player. -/
theorem aggregation_classifies_exactly_witness :
    (("org.mpris.MediaPlayer2.vlc", State.PLAYING) ∈
        ([("org.mpris.MediaPlayer2.spotify", State.PAUSED),
          ("org.mpris.MediaPlayer2.vlc", State.PLAYING)] : PlayerStates) ↔
      "org.mpris.MediaPlayer2.vlc" ∈ aggPlayers ∧
      envAgg.propReply "org.mpris.MediaPlayer2.vlc" =
        Except.ok [stateText State.PLAYING]) :=
  aggregation_classifies_exactly envAgg aggPlayers ⟨[], []⟩
    [("org.mpris.MediaPlayer2.spotify", State.PAUSED),
     ("org.mpris.MediaPlayer2.vlc", State.PLAYING)]
    ⟨[BusEvent.stateQueryEv "org.mpris.MediaPlayer2.spotify",
      BusEvent.stateQueryEv "org.mpris.MediaPlayer2.vlc"], []⟩
    (by decide) rfl "org.mpris.MediaPlayer2.vlc" State.PLAYING

/-- Witness for C9: the concrete session `envAgg` with command "pause"; the
StateMap key produced by aggregation is a discovered player. -/
theorem pipeline_never_invents_players_witness :
    "org.mpris.MediaPlayer2.spotify" ∈ aggPlayers :=
  (pipeline_never_invents_players envAgg aggPlayers ⟨[], []⟩
    [("org.mpris.MediaPlayer2.spotify", State.PAUSED),
     ("org.mpris.MediaPlayer2.vlc", State.PLAYING)]
    ⟨[BusEvent.stateQueryEv "org.mpris.MediaPlayer2.spotify",
      BusEvent.stateQueryEv "org.mpris.MediaPlayer2.vlc"], []⟩
    "pause" [("org.mpris.MediaPlayer2.vlc", "Pause")]
    rfl (by decide)).1
    "org.mpris.MediaPlayer2.spotify" State.PAUSED (by decide)

end MPC
